import Mathlib

/-!
Shallow embedding of the mindfulbot verification service (src/main.py) and
proofs about its verification state machine, lock controller, challenge
flow and daily reset scheduling.

Modelling conventions:
* instants are minutes since an arbitrary epoch, in UTC (`Instant`);
  calendar dates are day indices (`Day`); `dateAtOffset off t` is the
  civil date of instant `t` in a timezone that is `off` minutes ahead of
  UTC, mirroring `datetime.now(tz).date()`;
* the relational store is an in-memory record of the two tables created
  by `init_db`; SQL statements are embedded as list operations with SQL
  semantics (SELECT = first match, UPDATE = update all matching rows,
  DELETE = drop all matching rows, upsert = ON CONFLICT DO UPDATE);
* database availability and query failure are an explicit environment
  (`DbEnv`): `poolAvailable = false` models `db_pool` being `None`, and
  `raises = true` models the driver raising inside of each helper in its
  `try`/`except` block (each helper then returns its documented default);
* the chat platform (guilds, members, channels, permission overwrites)
  is external to the repository; it is modelled from the spec as a per
  (user, channel) permission overwrite holding the read-message-history
  field this program manipulates plus untouched other settings, and a
  `GuildEnv` describing guild membership, channel existence and bot
  privilege;
* randomness (`random.choice`) and out-of-band delivery outcomes are
  externalized as parameters of the event handlers.
-/

namespace MindfulBot

abbrev GuildId := Int
abbrev ChannelId := Int
abbrev UserId := Int

/-- A calendar date, as a day index (what Python `date` stores here). -/
abbrev Day := Int

/-- An instant, as minutes since an arbitrary epoch, measured in UTC. -/
abbrev Instant := Int

def minutesPerDay : Int := 1440

/-- Civil date of instant `t` in a timezone sitting `offsetMin` minutes
ahead of UTC (floor division, so it is correct for negative offsets). -/
def dateAtOffset (offsetMin : Int) (t : Instant) : Day :=
  Int.fdiv (t + offsetMin) minutesPerDay

/-- `datetime.now(timezone.utc).date()` as used by the database helpers. -/
def todayUTC (t : Instant) : Day := dateAtOffset 0 t

/-- Modelled from the spec: the configured reference timezone is
`America/New_York` (`TARGET_RESET_TIMEZONE`); the `zoneinfo` offset
computation is external to this repository.  We fix the standard-time
offset UTC-5 (in minutes), which is the offset in effect at the winter
instants used in the concrete counterexamples below. -/
def referenceOffsetMin : Int := -300

def TARGET_RESET_HOUR : Int := 9
def TARGET_RESET_MINUTE : Int := 0

/-- `COMMAND_PREFIX = "!"` from the configuration section. -/
def COMMAND_MARK : String := "!"

/-- The fixed list `AFFIRMATIONS` from the source. -/
def AFFIRMATIONS : List String :=
  [ "I will manage my risk.",
    "I will stick to my trading plan.",
    "I will not let FOMO drive my decisions.",
    "Patience is key to profitable trading.",
    "I trade based on strategy, not emotion.",
    "I accept the risk before entering a trade.",
    "I will protect my capital.",
    "I will not revenge trade.",
    "I am disciplined in my approach.",
    "I learn from both wins and losses." ]

/-- One row of `user_verifications` (besides the `user_id` key). -/
structure UserRecord where
  verified_date : Day
  pending_affirmation : Option String
deriving DecidableEq, Repr

/-- The persistent store: the two tables created by `init_db`. -/
structure Store where
  mindful_channels : List (GuildId × ChannelId)
  user_verifications : List (UserId × UserRecord)
deriving DecidableEq, Repr

/-- Database environment: whether the pool exists and whether queries
issued during the operation raise. -/
structure DbEnv where
  poolAvailable : Bool
  raises : Bool
deriving DecidableEq, Repr

/-- A healthy database: pool present, queries succeed. -/
def okEnv : DbEnv := ⟨true, false⟩

/-! ### Association-list operations with SQL semantics -/

/-- `SELECT ... WHERE key = k` returning the first matching row. -/
def lookupA {α β : Type} [DecidableEq α] : List (α × β) → α → Option β
  | [], _ => none
  | p :: rest, k => if p.1 = k then some p.2 else lookupA rest k

/-- `UPDATE ... WHERE key = k`: rewrite every matching row. -/
def updateAllA {α β : Type} [DecidableEq α] : List (α × β) → α → (β → β) → List (α × β)
  | [], _, _ => []
  | p :: rest, k, f =>
      (if p.1 = k then (p.1, f p.2) else p) :: updateAllA rest k f

/-- `DELETE ... WHERE key = k`. -/
def deleteA {α β : Type} [DecidableEq α] : List (α × β) → α → List (α × β)
  | [], _ => []
  | p :: rest, k => if p.1 = k then deleteA rest k else p :: deleteA rest k

/-- `INSERT ... ON CONFLICT (key) DO UPDATE`: update the existing row(s),
or append a fresh row when the key is absent. -/
def upsertA {α β : Type} [DecidableEq α] (tbl : List (α × β)) (k : α) (v : β) :
    List (α × β) :=
  if k ∈ tbl.map Prod.fst then updateAllA tbl k (fun _ => v) else tbl ++ [(k, v)]

/-! ### Database helper functions (src/main.py lines 129-252) -/

/-- `get_mindful_channels_db(guild_id)`: channel ids gated for a guild;
`[]` when the pool is missing or the query raises. -/
def get_mindful_channels_db (env : DbEnv) (store : Store) (guild_id : GuildId) :
    List ChannelId :=
  if env.poolAvailable = false then []
  else if env.raises then []
  else ((store.mindful_channels.filter (fun p => decide (p.1 = guild_id))).map Prod.snd)

/-- `add_mindful_channel_db(guild_id, channel_id)`: INSERT ... ON CONFLICT
DO NOTHING; `False` when the pool is missing or the query raises. -/
def add_mindful_channel_db (env : DbEnv) (store : Store) (guild_id : GuildId)
    (channel_id : ChannelId) : Bool × Store :=
  if env.poolAvailable = false then (false, store)
  else if env.raises then (false, store)
  else if (guild_id, channel_id) ∈ store.mindful_channels then (true, store)
  else (true, { store with
                  mindful_channels := store.mindful_channels ++ [(guild_id, channel_id)] })

/-- `remove_mindful_channel_db(guild_id, channel_id)`. -/
def remove_mindful_channel_db (env : DbEnv) (store : Store) (guild_id : GuildId)
    (channel_id : ChannelId) : Bool × Store :=
  if env.poolAvailable = false then (false, store)
  else if env.raises then (false, store)
  else (true, { store with
                  mindful_channels :=
                    store.mindful_channels.filter
                      (fun p => decide (¬ (p.1 = guild_id ∧ p.2 = channel_id))) })

/-- `get_user_verification_status_db(user_id)` (src/main.py lines 167-199):
the State Resolver.  Returns the status string and the pending affirmation,
computing "today" as `datetime.now(timezone.utc).date()`. -/
def get_user_verification_status_db (env : DbEnv) (store : Store) (now : Instant)
    (user_id : UserId) : String × Option String :=
  if env.poolAvailable = false then ("none", none)
  else
    let today_utc := todayUTC now
    if env.raises then ("none", none)
    else
      match lookupA store.user_verifications user_id with
      | some row =>
          let db_date := row.verified_date
          let pending_text := row.pending_affirmation
          if db_date = today_utc ∧ pending_text = none then ("verified", none)
          else if db_date = today_utc ∧ ¬ pending_text = none then ("pending", pending_text)
          else if ¬ db_date = today_utc ∧ ¬ pending_text = none then ("none", none)
          else ("none", none)
      | none => ("none", none)

/-- `set_pending_verification_db(user_id, affirmation)`: upsert
`(user_id, today_utc, affirmation)`. -/
def set_pending_verification_db (env : DbEnv) (store : Store) (now : Instant)
    (user_id : UserId) (affirmation : String) : Bool × Store :=
  if env.poolAvailable = false then (false, store)
  else if env.raises then (false, store)
  else (true, { store with
                  user_verifications :=
                    upsertA store.user_verifications user_id
                      ⟨todayUTC now, some affirmation⟩ })

/-- `complete_verification_db(user_id)`: `UPDATE user_verifications SET
verified_date = today_utc, pending_affirmation = NULL WHERE user_id = ...`;
reports `True` whether or not any row matched. -/
def complete_verification_db (env : DbEnv) (store : Store) (now : Instant)
    (user_id : UserId) : Bool × Store :=
  if env.poolAvailable = false then (false, store)
  else if env.raises then (false, store)
  else (true, { store with
                  user_verifications :=
                    updateAllA store.user_verifications user_id
                      (fun _ => ⟨todayUTC now, none⟩) })

/-- `clear_stale_verifications_db()`: delete every row whose
`verified_date` differs from the UTC date of today, returning the count deleted;
returns `0` (leaving the store alone) when the pool is missing or the
query raises — the `except` clause swallows the error. -/
def clear_stale_verifications_db (env : DbEnv) (store : Store) (now : Instant) :
    Nat × Store :=
  if env.poolAvailable = false then (0, store)
  else if env.raises then (0, store)
  else
    let deleted :=
      store.user_verifications.filter (fun p => decide (¬ p.2.verified_date = todayUTC now))
    let remaining :=
      store.user_verifications.filter (fun p => decide (p.2.verified_date = todayUTC now))
    (deleted.length, { store with user_verifications := remaining })

/-! ### Python string primitives

The comparison in `on_message` is
`message.content.strip().lower() == pending_affirmation.lower()`.
We embed `str.lower`, `str.strip` and `str.startswith` as executable
functions on the character list underlying a `String`. -/

/-- Python `str.lower` (character-wise lowering). -/
def pyLower (s : String) : String := ⟨s.data.map Char.toLower⟩

/-- Python `str.strip` (drop leading and trailing whitespace). -/
def pyStrip (s : String) : String :=
  ⟨((s.data.dropWhile Char.isWhitespace).reverse.dropWhile Char.isWhitespace).reverse⟩

def listPre : List Char → List Char → Bool
  | [], _ => true
  | _, [] => false
  | a :: as, b :: bs => if a = b then listPre as bs else false

/-- Python `s.startswith(pre)`. -/
def pyStarts (s pre : String) : Bool := listPre pre.data s.data

/-! ### Platform permission overwrites (Lock Controller state)

Modelled from the spec: the chat platform keeps at most one permission
overwrite per (user, channel); this program only ever edits its
read-message-history field (`channel.set_permissions(user,
read_message_history=...)`), other settings belong to other actors and
are carried along untouched. -/

/-- A per-(user, channel) permission overwrite: the read-history field
this program manipulates, plus whatever other settings exist. -/
structure PermissionOverwrite where
  read_message_history : Option Bool
  others : List (String × Bool)
deriving DecidableEq, Repr

def emptyOverwrite : PermissionOverwrite := ⟨none, []⟩

/-- Platform-side permission state: overwrites keyed by (user, channel). -/
abbrev PermState := List ((UserId × ChannelId) × PermissionOverwrite)

/-- `channel.overwrites_for(user)`: the current overwrite, or an empty
one when none is set. -/
def overwrites_for (ps : PermState) (u : UserId) (c : ChannelId) : PermissionOverwrite :=
  match lookupA ps (u, c) with
  | some ow => ow
  | none => emptyOverwrite

/-- `channel.set_permissions(user, read_message_history=v)`: edit the
read-history field of the overwrite for (user, channel), creating the
overwrite when absent. -/
def setReadHistory (ps : PermState) (k : UserId × ChannelId) (v : Option Bool) : PermState :=
  match ps with
  | [] => [(k, { read_message_history := v, others := [] })]
  | (k0, ow) :: rest =>
      if k0 = k then (k0, { ow with read_message_history := v }) :: rest
      else (k0, ow) :: setReadHistory rest k v

/-- `apply_read_lock(user, channel)` (src/main.py lines 260-281):
deny read-message-history for the user on the channel. -/
def apply_read_lock (ps : PermState) (u : UserId) (c : ChannelId) : PermState :=
  setReadHistory ps (u, c) (some false)

/-- `remove_read_lock(user, channel)` (src/main.py lines 284-310): reset
the read-history field to inherit, but only when it is currently an
explicit deny. -/
def remove_read_lock (ps : PermState) (u : UserId) (c : ChannelId) : PermState :=
  if (overwrites_for ps u c).read_message_history = some false then
    setReadHistory ps (u, c) none
  else ps

/-! ### Guild topology (external platform data) -/

/-- Modelled from the spec: the guilds the bot can see, guild
membership, channel existence/type, and whether the bot holds the
Manage Roles permission in a channel. -/
structure GuildEnv where
  guilds : List GuildId
  isMember : GuildId → UserId → Bool
  isTextChannel : GuildId → ChannelId → Bool
  botCanManage : GuildId → ChannelId → Bool

/-! ### Response Verifier (`on_message`, DM branch, src/main.py 443-504) -/

/-- Out-of-band messages the DM handler can send. -/
inductive DmOut where
  /-- the success confirmation after completed verification -/
  | success_confirm
  /-- the warning sent when `complete_verification_db` reports failure -/
  | save_error
  /-- the mismatch guidance, carrying the pending affirmation verbatim -/
  | challenge_resend (text : String)
deriving DecidableEq, Repr

/-- Result of handling one inbound DM: the store, the platform
permission state, the DMs sent back, and any anti-spam delay slept
(seconds). -/
structure DmResult where
  store : Store
  perms : PermState
  sent : List DmOut
  slept : Option Nat
deriving DecidableEq, Repr

/-- The per-guild inner loop of the verified branch: for every gated
channel id of the guild, if it resolves to a text channel and the bot
has Manage Roles there, remove the read lock; otherwise skip (warn). -/
def unlock_channels (g : GuildEnv) (uid : UserId) (gid : GuildId) :
    List ChannelId → PermState → PermState
  | [], ps => ps
  | cid :: rest, ps =>
      let ps1 :=
        if g.isTextChannel gid cid then
          if g.botCanManage gid cid then remove_read_lock ps uid cid else ps
        else ps
      unlock_channels g uid gid rest ps1

/-- The guild iteration of the verified branch (`async for guild in
bot.fetch_guilds(...)`), threading the `processed_guilds` set: guilds
already processed are skipped, guilds the user is not a member of are
skipped. -/
def unlock_guilds_go (env : DbEnv) (store : Store) (g : GuildEnv) (uid : UserId) :
    List GuildId → List GuildId → PermState → PermState
  | [], _, ps => ps
  | gid :: rest, processed, ps =>
      if gid ∈ processed then unlock_guilds_go env store g uid rest processed ps
      else if g.isMember gid uid then
        unlock_guilds_go env store g uid rest (gid :: processed)
          (unlock_channels g uid gid (get_mindful_channels_db env store gid) ps)
      else unlock_guilds_go env store g uid rest processed ps

/-- Remove the read lock for the user in every gated, sufficiently
privileged text channel of every shared guild. -/
def unlock_all_guilds (env : DbEnv) (store : Store) (g : GuildEnv) (uid : UserId)
    (ps : PermState) : PermState :=
  unlock_guilds_go env store g uid g.guilds [] ps

/-- The verified branch of the DM handler (src/main.py 456-490): mark
verified in the store, then remove locks across shared guilds, then
confirm; on a reported store failure, send the save-error warning
instead. -/
def dm_flow_after_match (env : DbEnv) (g : GuildEnv) (now : Instant) (store : Store)
    (perms : PermState) (uid : UserId) : DmResult :=
  let r := complete_verification_db env store now uid
  if r.1 then
    ⟨r.2, unlock_all_guilds env r.2 g uid perms, [DmOut.success_confirm], none⟩
  else
    ⟨r.2, perms, [DmOut.save_error], none⟩

/-- The DM branch of `on_message` (src/main.py 443-504) for a non-bot
author.  Mirrors, in order: the `db_pool` guard, the command-prefix
guard, the status resolution, the `status == pending and
pending_affirmation` truthiness guard (an empty pending text is falsy),
the trimmed case-insensitive comparison, and the two outcome branches
(the mismatch branch sleeps 1 second and resends the affirmation
verbatim). -/
def on_message_dm (env : DbEnv) (g : GuildEnv) (now : Instant) (store : Store)
    (perms : PermState) (uid : UserId) (content : String) : DmResult :=
  if env.poolAvailable = false then ⟨store, perms, [], none⟩
  else if pyStarts content COMMAND_MARK then ⟨store, perms, [], none⟩
  else
    let res := get_user_verification_status_db env store now uid
    match res.2 with
    | some pending_affirmation =>
        if res.1 = "pending" ∧ ¬ pending_affirmation = "" then
          if pyLower (pyStrip content) = pyLower pending_affirmation then
            dm_flow_after_match env g now store perms uid
          else
            ⟨store, perms, [DmOut.challenge_resend pending_affirmation], some 1⟩
        else ⟨store, perms, [], none⟩
    | none => ⟨store, perms, [], none⟩

/-! ### Challenge Dispatcher (`on_typing`, src/main.py 332-415) -/

/-- Result of handling one typing signal. -/
structure TypingResult where
  store : Store
  perms : PermState
  dmDelivered : Bool
deriving DecidableEq, Repr

/-- The `on_typing` handler for a guild text channel and a non-bot
member.  `hasRole` is whether the mindful role exists and the user
holds it; `affirmation` is the phrase drawn by `random.choice`;
`dmFails` is whether the out-of-band delivery raises (`Forbidden`).
On delivery failure the just-written pending row is deleted and the
lock stays (src/main.py 391-396). -/
def on_typing (env : DbEnv) (now : Instant) (store : Store) (perms : PermState)
    (gid : GuildId) (cid : ChannelId) (uid : UserId) (hasRole : Bool)
    (affirmation : String) (dmFails : Bool) : TypingResult :=
  if env.poolAvailable = false then ⟨store, perms, false⟩
  else
    let channels_list := get_mindful_channels_db env store gid
    if channels_list = [] ∨ ¬ cid ∈ channels_list then ⟨store, perms, false⟩
    else if hasRole = false then ⟨store, perms, false⟩
    else
      let res := get_user_verification_status_db env store now uid
      if res.1 = "none" then
        let perms1 := apply_read_lock perms uid cid
        let r := set_pending_verification_db env store now uid affirmation
        if r.1 then
          if dmFails then
            ⟨{ r.2 with user_verifications := deleteA r.2.user_verifications uid },
              perms1, false⟩
          else ⟨r.2, perms1, true⟩
        else ⟨r.2, perms1, false⟩
      else if res.1 = "pending" then
        ⟨store, apply_read_lock perms uid cid, false⟩
      else ⟨store, perms, false⟩

/-! ### Reset Scheduler (`daily_reset_task`, src/main.py 654-696) -/

/-- One tick of the 5-minute reset loop.  `tzOffsetMin` is the
reference-timezone offset delivered by `ZoneInfo` (external).  Returns
the store, the new `last_reset_run_date`, and `some count` when the
bulk clear fired (with the count it reported). -/
def daily_reset_task (env : DbEnv) (tzOffsetMin : Int) (store : Store) (now : Instant)
    (last_reset_run_date : Day) : Store × Day × Option Nat :=
  if env.poolAvailable = false then (store, last_reset_run_date, none)
  else
    let now_local := now + tzOffsetMin
    let today_local := Int.fdiv now_local minutesPerDay
    let target_minutes := TARGET_RESET_HOUR * 60 + TARGET_RESET_MINUTE
    if now_local ≥ today_local * minutesPerDay + target_minutes ∧
        last_reset_run_date < today_local then
      let r := clear_stale_verifications_db env store now
      (r.2, today_local, some r.1)
    else (store, last_reset_run_date, none)

/-! ### Spec-side State Resolver (for the timezone refinement claim)

Modelled from the spec (section 4.1): the resolver case analysis with
"today" computed in a timezone given by its offset; the spec prescribes
the configured reference timezone (`America/New_York`), i.e. offset
`referenceOffsetMin`, while the source uses UTC. -/
def resolve_spec_at_offset (offsetMin : Int) (store : Store) (now : Instant)
    (uid : UserId) : String × Option String :=
  let today := dateAtOffset offsetMin now
  match lookupA store.user_verifications uid with
  | none => ("none", none)
  | some row =>
      if row.verified_date = today ∧ row.pending_affirmation = none then ("verified", none)
      else if row.verified_date = today then ("pending", row.pending_affirmation)
      else ("none", none)

/-! ## Concrete fixtures used by witnesses and counterexamples -/

/-- A guild environment with no guilds at all. -/
def emptyGuildEnv : GuildEnv :=
  ⟨[], fun _ _ => false, fun _ _ => false, fun _ _ => false⟩

def c1Store : Store :=
  ⟨[], [(1, ⟨100, none⟩), (2, ⟨100, some "I will manage my risk."⟩), (3, ⟨99, some "X"⟩)]⟩

def c2Store : Store := ⟨[], [(5, ⟨99, none⟩)]⟩

/-- 02:00 UTC on day 100, which is 21:00 on day 99 in the reference
timezone (UTC-5). -/
def c2Now : Instant := 100 * 1440 + 120

/-- A database whose pool exists but whose queries raise. -/
def failEnv : DbEnv := ⟨true, true⟩

/-- A store holding one stale row (dated day 99). -/
def c4Store : Store := ⟨[], [(7, ⟨99, some "X"⟩)]⟩

/-- 09:30 on day 100 in the reference timezone (UTC-5), expressed in
UTC minutes: past the 09:00 reset instant. -/
def c4Now : Instant := 100 * 1440 + 570 + 300

/-- A one-guild environment for the unlock-loop witnesses: guild 11
with the user as member, channel 21 a text channel with bot privilege,
channel 22 a text channel without bot privilege. -/
def c3GuildEnv : GuildEnv :=
  ⟨[11], fun _ _ => true, fun _ _ => true, fun _ c => decide (c = 21)⟩

/-- A store gating channels 21 and 22 of guild 11, with user 7 pending
"Ok" on day 100. -/
def c3Store : Store := ⟨[(11, 21), (11, 22)], [(7, ⟨100, some "Ok"⟩)]⟩

/-- Locks held by user 7 on channels 21 and 22. -/
def c3Perms : PermState := [((7, 21), ⟨some false, []⟩), ((7, 22), ⟨some false, []⟩)]

/-! ## Helper lemmas: association lists -/

theorem lookupA_updateAllA {α β : Type} [DecidableEq α] (tbl : List (α × β)) (k : α)
    (f : β → β) : lookupA (updateAllA tbl k f) k = (lookupA tbl k).map f := by
  induction tbl with
  | nil => simp [lookupA, updateAllA]
  | cons p rest ih =>
      by_cases h : p.1 = k
      · simp [updateAllA, lookupA, h]
      · simp [updateAllA, lookupA, h, ih]

theorem lookupA_updateAllA_other {α β : Type} [DecidableEq α] (tbl : List (α × β))
    (k k' : α) (f : β → β) (hk : ¬ k' = k) :
    lookupA (updateAllA tbl k f) k' = lookupA tbl k' := by
  induction tbl with
  | nil => simp [lookupA, updateAllA]
  | cons p rest ih =>
      by_cases h : p.1 = k
      · have h2 : ¬ k = k' := fun hc => hk hc.symm
        simp [updateAllA, lookupA, h, h2, ih]
      · by_cases h' : p.1 = k'
        · simp [updateAllA, lookupA, h, h', hk, ih]
        · simp [updateAllA, lookupA, h, h', ih]

theorem updateAllA_keys {α β : Type} [DecidableEq α] (tbl : List (α × β)) (k : α)
    (f : β → β) : (updateAllA tbl k f).map Prod.fst = tbl.map Prod.fst := by
  induction tbl with
  | nil => simp [updateAllA]
  | cons p rest ih =>
      by_cases h : p.1 = k <;> simp [updateAllA, h, ih]

theorem lookupA_deleteA_self {α β : Type} [DecidableEq α] (tbl : List (α × β)) (k : α) :
    lookupA (deleteA tbl k) k = none := by
  induction tbl with
  | nil => simp [lookupA, deleteA]
  | cons p rest ih =>
      by_cases h : p.1 = k <;> simp [deleteA, lookupA, h, ih]

theorem lookupA_append {α β : Type} [DecidableEq α] (t1 t2 : List (α × β)) (k : α) :
    lookupA (t1 ++ t2) k = ((lookupA t1 k).rec (lookupA t2 k) (fun v => some v)) := by
  induction t1 with
  | nil => simp [lookupA]
  | cons p rest ih =>
      by_cases h : p.1 = k <;> simp [lookupA, h, ih]

theorem lookupA_eq_none_of_not_mem {α β : Type} [DecidableEq α] (tbl : List (α × β))
    (k : α) (h : ¬ k ∈ tbl.map Prod.fst) : lookupA tbl k = none := by
  induction tbl with
  | nil => simp [lookupA]
  | cons p rest ih =>
      simp only [List.map_cons, List.mem_cons, not_or] at h
      have h1 : ¬ p.1 = k := fun hc => h.1 hc.symm
      simp [lookupA, h1, ih h.2]

theorem lookupA_upsertA_self {α β : Type} [DecidableEq α] (tbl : List (α × β)) (k : α)
    (v : β) : lookupA (upsertA tbl k v) k = some v := by
  unfold upsertA
  by_cases h : k ∈ tbl.map Prod.fst
  · simp only [h, if_pos]
    rw [lookupA_updateAllA]
    have : ¬ lookupA tbl k = none := by
      intro hn
      induction tbl with
      | nil => simp at h
      | cons p rest ih =>
          simp only [List.map_cons, List.mem_cons] at h
          by_cases hp : p.1 = k
          · simp [lookupA, hp] at hn
          · rcases h with h | h
            · exact hp h.symm
            · simp only [lookupA, hp, if_neg] at hn
              exact ih h hn
    cases hl : lookupA tbl k with
    | none => exact absurd hl this
    | some w => simp
  · simp only [h, if_neg, not_false_iff]
    rw [lookupA_append, lookupA_eq_none_of_not_mem tbl k h]
    simp [lookupA]

/-! ## Helper lemmas: the gated-channel table -/

theorem mem_get_mindful_channels (store : Store) (gid : GuildId) (cid : ChannelId) :
    cid ∈ get_mindful_channels_db okEnv store gid ↔
      (gid, cid) ∈ store.mindful_channels := by
  show cid ∈ (store.mindful_channels.filter (fun p => decide (p.1 = gid))).map Prod.snd ↔ _
  constructor
  · intro h
    rcases List.mem_map.mp h with ⟨p, hp, hc⟩
    rcases List.mem_filter.mp hp with ⟨hmem, hg⟩
    have hg' : p.1 = gid := of_decide_eq_true hg
    have hpq : p = (gid, cid) := Prod.ext_iff.mpr ⟨hg', hc⟩
    exact hpq ▸ hmem
  · intro h
    exact List.mem_map.mpr ⟨(gid, cid), List.mem_filter.mpr ⟨h, by simp⟩, rfl⟩

/-! ## Helper lemmas: the State Resolver -/

theorem okEnv_pool : okEnv.poolAvailable = true := rfl

theorem okEnv_raises : okEnv.raises = false := rfl

theorem resolver_of_lookup_none (store : Store) (now : Instant) (uid : UserId)
    (h : lookupA store.user_verifications uid = none) :
    get_user_verification_status_db okEnv store now uid = ("none", none) := by
  simp [get_user_verification_status_db, okEnv, h]

theorem resolver_verified (store : Store) (now : Instant) (uid : UserId)
    (row : UserRecord) (hrow : lookupA store.user_verifications uid = some row)
    (hdate : row.verified_date = todayUTC now) (hpend : row.pending_affirmation = none) :
    get_user_verification_status_db okEnv store now uid = ("verified", none) := by
  simp [get_user_verification_status_db, okEnv, hrow, hdate, hpend]

theorem resolver_pending (store : Store) (now : Instant) (uid : UserId)
    (row : UserRecord) (E : String) (hrow : lookupA store.user_verifications uid = some row)
    (hdate : row.verified_date = todayUTC now) (hpend : row.pending_affirmation = some E) :
    get_user_verification_status_db okEnv store now uid = ("pending", some E) := by
  simp [get_user_verification_status_db, okEnv, hrow, hdate, hpend]

theorem resolver_stale (store : Store) (now : Instant) (uid : UserId)
    (row : UserRecord) (hrow : lookupA store.user_verifications uid = some row)
    (hdate : ¬ row.verified_date = todayUTC now) :
    get_user_verification_status_db okEnv store now uid = ("none", none) := by
  cases hp : row.pending_affirmation <;>
    simp [get_user_verification_status_db, okEnv, hrow, hdate, hp]

/-! ## Helper lemmas: permission overwrites -/

theorem overwrites_setReadHistory_self (ps : PermState) (u : UserId) (c : ChannelId)
    (v : Option Bool) :
    overwrites_for (setReadHistory ps (u, c) v) u c =
      { overwrites_for ps u c with read_message_history := v } := by
  induction ps with
  | nil => simp [setReadHistory, overwrites_for, lookupA, emptyOverwrite]
  | cons p rest ih =>
      by_cases h : p.1 = (u, c)
      · simp [setReadHistory, overwrites_for, lookupA, h]
      · simp only [setReadHistory, h, if_neg, not_false_iff]
        simp only [overwrites_for, lookupA, h, if_neg, not_false_iff] at ih ⊢
        exact ih

theorem overwrites_setReadHistory_other (ps : PermState) (u : UserId) (c : ChannelId)
    (v : Option Bool) (u' : UserId) (c' : ChannelId) (h : ¬ (u' = u ∧ c' = c)) :
    overwrites_for (setReadHistory ps (u, c) v) u' c' = overwrites_for ps u' c' := by
  have hk : ¬ ((u', c') : UserId × ChannelId) = (u, c) := by
    intro hc
    exact h ⟨congrArg Prod.fst hc, congrArg Prod.snd hc⟩
  induction ps with
  | nil =>
      simp only [setReadHistory, overwrites_for, lookupA]
      have : ¬ ((u, c) : UserId × ChannelId) = (u', c') := fun hc => hk hc.symm
      simp [this]
  | cons p rest ih =>
      have h3 : ¬ (u = u' ∧ c = c') := fun hp => h ⟨hp.1.symm, hp.2.symm⟩
      have h4 : ¬ (u' = u ∧ c' = c) := h
      by_cases h1 : p.1 = (u, c)
      · have h2 : ¬ p.1 = (u', c') := by
          rw [h1]
          exact fun hc => hk hc.symm
        simp [setReadHistory, overwrites_for, lookupA, h1, h2, h3, h4]
      · by_cases h2 : p.1 = (u', c')
        · simp [setReadHistory, overwrites_for, lookupA, h1, h2, h3, h4]
        · simp only [setReadHistory, h1, if_neg, not_false_iff]
          simp only [overwrites_for, lookupA, h2, if_neg, not_false_iff] at ih ⊢
          exact ih

theorem setReadHistory_idem (ps : PermState) (k : UserId × ChannelId) (v : Option Bool) :
    setReadHistory (setReadHistory ps k v) k v = setReadHistory ps k v := by
  induction ps with
  | nil => simp [setReadHistory]
  | cons p rest ih =>
      by_cases h : p.1 = k
      · simp [setReadHistory, h]
      · simp [setReadHistory, h, ih]

theorem remove_read_lock_of_not_locked (ps : PermState) (u : UserId) (c : ChannelId)
    (h : ¬ (overwrites_for ps u c).read_message_history = some false) :
    remove_read_lock ps u c = ps := by
  simp [remove_read_lock, h]

theorem remove_read_lock_unlocked (ps : PermState) (u : UserId) (c : ChannelId) :
    ¬ (overwrites_for (remove_read_lock ps u c) u c).read_message_history = some false := by
  by_cases h : (overwrites_for ps u c).read_message_history = some false
  · simp [remove_read_lock, h, overwrites_setReadHistory_self]
  · simp [remove_read_lock, h]

theorem remove_read_lock_others (ps : PermState) (u : UserId) (c : ChannelId) :
    (overwrites_for (remove_read_lock ps u c) u c).others =
      (overwrites_for ps u c).others := by
  by_cases h : (overwrites_for ps u c).read_message_history = some false
  · simp [remove_read_lock, h, overwrites_setReadHistory_self]
  · simp [remove_read_lock, h]

theorem remove_read_lock_other_key (ps : PermState) (u : UserId) (c : ChannelId)
    (u' : UserId) (c' : ChannelId) (h : ¬ (u' = u ∧ c' = c)) :
    overwrites_for (remove_read_lock ps u c) u' c' = overwrites_for ps u' c' := by
  by_cases hl : (overwrites_for ps u c).read_message_history = some false
  · simp only [remove_read_lock, hl, if_pos]
    exact overwrites_setReadHistory_other ps u c none u' c' h
  · simp [remove_read_lock, hl]

/-! ## Helper lemmas: the unlock iteration of the verified branch -/

theorem unlock_channels_other_user (g : GuildEnv) (uid : UserId) (gid : GuildId)
    (chans : List ChannelId) (ps : PermState) (u' : UserId) (c' : ChannelId)
    (h : ¬ u' = uid) :
    overwrites_for (unlock_channels g uid gid chans ps) u' c' = overwrites_for ps u' c' := by
  induction chans generalizing ps with
  | nil => rfl
  | cons cid rest ih =>
      show overwrites_for (unlock_channels g uid gid rest _) u' c' = _
      rw [ih]
      by_cases ht : g.isTextChannel gid cid = true
      · by_cases hm : g.botCanManage gid cid = true
        · simp only [ht, hm, if_pos]
          exact remove_read_lock_other_key ps uid cid u' c' (fun hc => h hc.1)
        · simp [ht, hm]
      · simp [ht]

theorem unlock_channels_preserves_unlocked (g : GuildEnv) (uid : UserId) (gid : GuildId)
    (chans : List ChannelId) (ps : PermState) (c : ChannelId)
    (h : ¬ (overwrites_for ps uid c).read_message_history = some false) :
    ¬ (overwrites_for (unlock_channels g uid gid chans ps) uid c).read_message_history
        = some false := by
  induction chans generalizing ps with
  | nil => exact h
  | cons cid rest ih =>
      show ¬ (overwrites_for (unlock_channels g uid gid rest _) uid c).read_message_history
            = some false
      apply ih
      by_cases ht : g.isTextChannel gid cid = true
      · by_cases hm : g.botCanManage gid cid = true
        · simp only [ht, hm, if_pos]
          by_cases hc : c = cid
          · subst hc
            exact remove_read_lock_unlocked ps uid c
          · rw [remove_read_lock_other_key ps uid cid uid c (fun hp => hc hp.2)]
            exact h
        · simpa [ht, hm] using h
      · simpa [ht] using h

theorem unlock_channels_establishes (g : GuildEnv) (uid : UserId) (gid : GuildId)
    (chans : List ChannelId) (ps : PermState) (c : ChannelId)
    (hmem : c ∈ chans) (htext : g.isTextChannel gid c = true)
    (hman : g.botCanManage gid c = true) :
    ¬ (overwrites_for (unlock_channels g uid gid chans ps) uid c).read_message_history
        = some false := by
  induction chans generalizing ps with
  | nil => cases hmem
  | cons cid rest ih =>
      rcases List.mem_cons.mp hmem with hc | hc
      · subst hc
        show ¬ (overwrites_for (unlock_channels g uid gid rest _) uid c).read_message_history
              = some false
        apply unlock_channels_preserves_unlocked
        simp only [htext, hman, if_pos]
        exact remove_read_lock_unlocked ps uid c
      · exact ih _ hc

theorem unlock_channels_untouched (g : GuildEnv) (uid : UserId) (gid : GuildId)
    (chans : List ChannelId) (ps : PermState) (c : ChannelId)
    (h : ¬ c ∈ chans ∨
         ¬ (g.isTextChannel gid c = true ∧ g.botCanManage gid c = true)) :
    overwrites_for (unlock_channels g uid gid chans ps) uid c = overwrites_for ps uid c := by
  induction chans generalizing ps with
  | nil => rfl
  | cons cid rest ih =>
      have hrest : ¬ c ∈ rest ∨
          ¬ (g.isTextChannel gid c = true ∧ g.botCanManage gid c = true) := by
        rcases h with h1 | h2
        · exact Or.inl (fun hr => h1 (List.mem_cons_of_mem _ hr))
        · exact Or.inr h2
      show overwrites_for (unlock_channels g uid gid rest _) uid c = _
      rw [ih _ hrest]
      by_cases hc : cid = c
      · subst hc
        have hng : ¬ (g.isTextChannel gid cid = true ∧ g.botCanManage gid cid = true) := by
          rcases h with h1 | h2
          · exact absurd (List.mem_cons_self _ _) h1
          · exact h2
        by_cases ht : g.isTextChannel gid cid = true
        · have hm : ¬ g.botCanManage gid cid = true := fun hm => hng ⟨ht, hm⟩
          simp [ht, hm]
        · simp [ht]
      · by_cases ht : g.isTextChannel gid cid = true
        · by_cases hm : g.botCanManage gid cid = true
          · simp only [ht, hm, if_pos]
            exact remove_read_lock_other_key ps uid cid uid c (fun hp => hc hp.2.symm)
          · simp [ht, hm]
        · simp [ht]

theorem unlock_guilds_go_preserves_unlocked (env : DbEnv) (store : Store) (g : GuildEnv)
    (uid : UserId) (gl : List GuildId) (processed : List GuildId) (ps : PermState)
    (c : ChannelId)
    (h : ¬ (overwrites_for ps uid c).read_message_history = some false) :
    ¬ (overwrites_for (unlock_guilds_go env store g uid gl processed ps) uid
          c).read_message_history = some false := by
  induction gl generalizing processed ps with
  | nil => exact h
  | cons gid rest ih =>
      by_cases hp : gid ∈ processed
      · simp only [unlock_guilds_go, hp, if_pos]
        exact ih _ _ h
      · by_cases hm : g.isMember gid uid = true
        · simp only [unlock_guilds_go, hp, hm, if_neg, not_false_iff, if_pos]
          exact ih _ _ (unlock_channels_preserves_unlocked g uid gid _ ps c h)
        · simp only [unlock_guilds_go, hp, hm, if_neg, not_false_iff]
          exact ih _ _ h

theorem unlock_guilds_go_establishes (env : DbEnv) (store : Store) (g : GuildEnv)
    (uid : UserId) (gl : List GuildId) (processed : List GuildId) (ps : PermState)
    (gid : GuildId) (c : ChannelId)
    (hg : gid ∈ gl) (hnp : ¬ gid ∈ processed) (hm : g.isMember gid uid = true)
    (hc : c ∈ get_mindful_channels_db env store gid)
    (htext : g.isTextChannel gid c = true) (hman : g.botCanManage gid c = true) :
    ¬ (overwrites_for (unlock_guilds_go env store g uid gl processed ps) uid
          c).read_message_history = some false := by
  induction gl generalizing processed ps with
  | nil => cases hg
  | cons g0 rest ih =>
      by_cases hp : g0 ∈ processed
      · have hg' : gid ∈ rest := by
          rcases List.mem_cons.mp hg with h0 | h0
          · exact absurd (h0 ▸ hp) hnp
          · exact h0
        simp only [unlock_guilds_go, hp, if_pos]
        exact ih _ _ hg' hnp
      · by_cases hm0 : g.isMember g0 uid = true
        · simp only [unlock_guilds_go, hp, hm0, if_neg, not_false_iff, if_pos]
          by_cases h0 : g0 = gid
          · subst h0
            exact unlock_guilds_go_preserves_unlocked env store g uid rest _ _ c
              (unlock_channels_establishes g uid g0 _ ps c hc htext hman)
          · have hg' : gid ∈ rest := by
              rcases List.mem_cons.mp hg with h1 | h1
              · exact absurd h1.symm h0
              · exact h1
            have hnp' : ¬ gid ∈ (g0 :: processed) := by
              intro hmem
              rcases List.mem_cons.mp hmem with h1 | h1
              · exact h0 h1.symm
              · exact hnp h1
            exact ih _ _ hg' hnp'
        · have hg' : gid ∈ rest := by
            rcases List.mem_cons.mp hg with h0 | h0
            · exact absurd (h0 ▸ hm) hm0
            · exact h0
          simp only [unlock_guilds_go, hp, hm0, if_neg, not_false_iff]
          exact ih _ _ hg' hnp

theorem unlock_guilds_go_untouched (env : DbEnv) (store : Store) (g : GuildEnv)
    (uid : UserId) (gl : List GuildId) (processed : List GuildId) (ps : PermState)
    (c : ChannelId)
    (h : ∀ gid, gid ∈ gl →
        ¬ (g.isMember gid uid = true ∧ c ∈ get_mindful_channels_db env store gid ∧
           g.isTextChannel gid c = true ∧ g.botCanManage gid c = true)) :
    overwrites_for (unlock_guilds_go env store g uid gl processed ps) uid c =
      overwrites_for ps uid c := by
  induction gl generalizing processed ps with
  | nil => rfl
  | cons g0 rest ih =>
      have hrest : ∀ gid, gid ∈ rest →
          ¬ (g.isMember gid uid = true ∧ c ∈ get_mindful_channels_db env store gid ∧
             g.isTextChannel gid c = true ∧ g.botCanManage gid c = true) :=
        fun gid hmem => h gid (List.mem_cons_of_mem _ hmem)
      by_cases hp : g0 ∈ processed
      · simp only [unlock_guilds_go, hp, if_pos]
        exact ih _ _ hrest
      · by_cases hm0 : g.isMember g0 uid = true
        · simp only [unlock_guilds_go, hp, hm0, if_neg, not_false_iff, if_pos]
          rw [ih _ _ hrest]
          apply unlock_channels_untouched
          have h0 := h g0 (List.mem_cons_self _ _)
          by_cases hcm : c ∈ get_mindful_channels_db env store g0
          · refine Or.inr ?_
            intro hboth
            exact h0 ⟨hm0, hcm, hboth.1, hboth.2⟩
          · exact Or.inl hcm
        · simp only [unlock_guilds_go, hp, hm0, if_neg, not_false_iff]
          exact ih _ _ hrest

theorem unlock_guilds_go_other_user (env : DbEnv) (store : Store) (g : GuildEnv)
    (uid : UserId) (gl : List GuildId) (processed : List GuildId) (ps : PermState)
    (u' : UserId) (c' : ChannelId) (h : ¬ u' = uid) :
    overwrites_for (unlock_guilds_go env store g uid gl processed ps) u' c' =
      overwrites_for ps u' c' := by
  induction gl generalizing processed ps with
  | nil => rfl
  | cons g0 rest ih =>
      by_cases hp : g0 ∈ processed
      · simp only [unlock_guilds_go, hp, if_pos]
        exact ih _ _
      · by_cases hm0 : g.isMember g0 uid = true
        · simp only [unlock_guilds_go, hp, hm0, if_neg, not_false_iff, if_pos]
          rw [ih _ _]
          exact unlock_channels_other_user g uid g0 _ ps u' c' h
        · simp only [unlock_guilds_go, hp, hm0, if_neg, not_false_iff]
          exact ih _ _

/-! ## Helper lemmas: handler reductions -/

theorem updateAllA_of_lookup_none {α β : Type} [DecidableEq α] (tbl : List (α × β))
    (k : α) (f : β → β) (h : lookupA tbl k = none) : updateAllA tbl k f = tbl := by
  induction tbl with
  | nil => rfl
  | cons p rest ih =>
      by_cases hp : p.1 = k
      · simp [lookupA, hp] at h
      · simp only [lookupA, hp, if_neg, not_false_iff] at h
        simp [updateAllA, hp, ih h]

/-- The issuance path of `on_typing` when the DM delivery fails: lock
applied, pending row upserted, then the row deleted again with the
lock kept. -/
theorem on_typing_dm_fail (store : Store) (perms : PermState) (now : Instant)
    (gid : GuildId) (cid : ChannelId) (uid : UserId) (aff : String)
    (hgated : (gid, cid) ∈ store.mindful_channels)
    (hstatus : get_user_verification_status_db okEnv store now uid = ("none", none)) :
    on_typing okEnv now store perms gid cid uid true aff true =
      ⟨{ store with
           user_verifications :=
             deleteA (upsertA store.user_verifications uid ⟨todayUTC now, some aff⟩) uid },
        apply_read_lock perms uid cid, false⟩ := by
  have hc : cid ∈ get_mindful_channels_db ⟨true, false⟩ store gid :=
    (mem_get_mindful_channels store gid cid).mpr hgated
  have hne : ¬ get_mindful_channels_db (⟨true, false⟩ : DbEnv) store gid = [] := by
    intro h0
    rw [h0] at hc
    cases hc
  have hstatus' : get_user_verification_status_db ⟨true, false⟩ store now uid
      = ("none", none) := hstatus
  simp [on_typing, set_pending_verification_db, okEnv, hne, hc, hstatus']

/-- The issuance path of `on_typing` when the DM delivery succeeds:
lock applied, pending row upserted, challenge delivered. -/
theorem on_typing_dm_ok (store : Store) (perms : PermState) (now : Instant)
    (gid : GuildId) (cid : ChannelId) (uid : UserId) (aff : String)
    (hgated : (gid, cid) ∈ store.mindful_channels)
    (hstatus : get_user_verification_status_db okEnv store now uid = ("none", none)) :
    on_typing okEnv now store perms gid cid uid true aff false =
      ⟨{ store with
           user_verifications :=
             upsertA store.user_verifications uid ⟨todayUTC now, some aff⟩ },
        apply_read_lock perms uid cid, true⟩ := by
  have hc : cid ∈ get_mindful_channels_db ⟨true, false⟩ store gid :=
    (mem_get_mindful_channels store gid cid).mpr hgated
  have hne : ¬ get_mindful_channels_db (⟨true, false⟩ : DbEnv) store gid = [] := by
    intro h0
    rw [h0] at hc
    cases hc
  have hstatus' : get_user_verification_status_db ⟨true, false⟩ store now uid
      = ("none", none) := hstatus
  simp [on_typing, set_pending_verification_db, okEnv, hne, hc, hstatus']

/-- The accepted-reply path of the DM handler: pending state with a
nonempty expected text, non-command content, trimmed case-insensitive
match — the row is rewritten to (today, NULL), the unlock pass runs,
and the success confirmation is sent. -/
theorem on_message_dm_pending_match (g : GuildEnv) (store : Store) (perms : PermState)
    (now : Instant) (uid : UserId) (content : String) (row : UserRecord) (E : String)
    (hrow : lookupA store.user_verifications uid = some row)
    (hdate : row.verified_date = todayUTC now)
    (hpend : row.pending_affirmation = some E)
    (hE : ¬ E = "")
    (hcmd : ¬ pyStarts content COMMAND_MARK = true)
    (hm : pyLower (pyStrip content) = pyLower E) :
    on_message_dm okEnv g now store perms uid content =
      ⟨{ store with user_verifications :=
           updateAllA store.user_verifications uid (fun _ => ⟨todayUTC now, none⟩) },
        unlock_all_guilds okEnv
          { store with user_verifications :=
              updateAllA store.user_verifications uid (fun _ => ⟨todayUTC now, none⟩) }
          g uid perms,
        [DmOut.success_confirm], none⟩ := by
  have hres : get_user_verification_status_db ⟨true, false⟩ store now uid
      = ("pending", some E) := resolver_pending store now uid row E hrow hdate hpend
  simp [on_message_dm, dm_flow_after_match, complete_verification_db, okEnv, hcmd,
    hres, hE, hm]

/-- The rejected-reply path of the DM handler: nothing changes, the
expected text is resent verbatim after a one-second sleep. -/
theorem on_message_dm_pending_mismatch (g : GuildEnv) (store : Store) (perms : PermState)
    (now : Instant) (uid : UserId) (content : String) (row : UserRecord) (E : String)
    (hrow : lookupA store.user_verifications uid = some row)
    (hdate : row.verified_date = todayUTC now)
    (hpend : row.pending_affirmation = some E)
    (hE : ¬ E = "")
    (hcmd : ¬ pyStarts content COMMAND_MARK = true)
    (hmm : ¬ pyLower (pyStrip content) = pyLower E) :
    on_message_dm okEnv g now store perms uid content
      = ⟨store, perms, [DmOut.challenge_resend E], some 1⟩ := by
  have hres : get_user_verification_status_db ⟨true, false⟩ store now uid
      = ("pending", some E) := resolver_pending store now uid row E hrow hdate hpend
  simp [on_message_dm, okEnv, hcmd, hres, hE, hmm]

/-! ## Claims -/

/-- Claim C7: `apply_read_lock` is idempotent (two applications leave
the same overwrite state as one); `remove_read_lock` acts only when the
read-history capability is currently explicitly denied (no-op on an
already-unlocked pair, clearing the deny to "inherit" otherwise), and
it never disturbs the overwrite's other settings nor any other
(user, channel) overwrite. -/
theorem C7_lock_controller (ps : PermState) (u : UserId) (c : ChannelId) :
    apply_read_lock (apply_read_lock ps u c) u c = apply_read_lock ps u c ∧
    (¬ (overwrites_for ps u c).read_message_history = some false →
        remove_read_lock ps u c = ps) ∧
    ((overwrites_for ps u c).read_message_history = some false →
        (overwrites_for (remove_read_lock ps u c) u c).read_message_history = none) ∧
    (overwrites_for (remove_read_lock ps u c) u c).others =
      (overwrites_for ps u c).others ∧
    (∀ (u' : UserId) (c' : ChannelId), ¬ (u' = u ∧ c' = c) →
        overwrites_for (remove_read_lock ps u c) u' c' = overwrites_for ps u' c') := by
  refine ⟨setReadHistory_idem ps (u, c) (some false),
    remove_read_lock_of_not_locked ps u c, ?_, remove_read_lock_others ps u c,
    fun u' c' h => remove_read_lock_other_key ps u c u' c' h⟩
  intro hl
  simp [remove_read_lock, hl, overwrites_setReadHistory_self]

/-- Witness for C7: removing the lock on a pair whose overwrite denies
something else entirely is a no-op. -/
theorem C7_lock_controller_witness :
    remove_read_lock ([((3, 4), ⟨some true, [("other", false)]⟩)] : PermState) 3 4
      = [((3, 4), ⟨some true, [("other", false)]⟩)] :=
  (C7_lock_controller [((3, 4), ⟨some true, [("other", false)]⟩)] 3 4).2.1 (by decide)

/-- Claim C4 is broken by the code on the failure half: the firing
condition (`now_local >= target and last_run < today`) is as claimed,
but a failing bulk clear does not leave `last_reset_run_date`
unchanged.  `clear_stale_verifications_db` swallows every database
exception and returns 0, so `daily_reset_task`'s own except-branch
(whose comment promises not to advance the date on failure) is
unreachable: at 09:30 reference time with a raising database the tick
reports `some 0`, clears nothing, and still advances the date to
day 100, and the next tick of the same day no longer fires — even
though a healthy database would have deleted the stale row. -/
theorem C4_failed_clear_still_advances :
    daily_reset_task failEnv referenceOffsetMin c4Store c4Now 99
      = (c4Store, 100, some 0) ∧
    daily_reset_task failEnv referenceOffsetMin c4Store (c4Now + 5) 100
      = (c4Store, 100, none) ∧
    clear_stale_verifications_db okEnv c4Store c4Now = (1, ⟨[], []⟩) := by
  decide

/-- Claim C1: for every user id and store state, the State Resolver
(`get_user_verification_status_db`) follows exactly this case analysis:
no record → none; record dated today with no pending text → verified;
record dated today with pending text → pending with that text; record
dated any other day → none regardless of the pending text. -/
theorem C1_state_resolver_cases (store : Store) (uid : UserId) (now : Instant) :
    (lookupA store.user_verifications uid = none →
        get_user_verification_status_db okEnv store now uid = ("none", none)) ∧
    (∀ row : UserRecord, lookupA store.user_verifications uid = some row →
        row.verified_date = todayUTC now → row.pending_affirmation = none →
        get_user_verification_status_db okEnv store now uid = ("verified", none)) ∧
    (∀ (row : UserRecord) (s : String), lookupA store.user_verifications uid = some row →
        row.verified_date = todayUTC now → row.pending_affirmation = some s →
        get_user_verification_status_db okEnv store now uid = ("pending", some s)) ∧
    (∀ row : UserRecord, lookupA store.user_verifications uid = some row →
        ¬ row.verified_date = todayUTC now →
        get_user_verification_status_db okEnv store now uid = ("none", none)) :=
  ⟨fun h => resolver_of_lookup_none store now uid h,
   fun row hrow hd hp => resolver_verified store now uid row hrow hd hp,
   fun row s hrow hd hp => resolver_pending store now uid row s hrow hd hp,
   fun row hrow hd => resolver_stale store now uid row hrow hd⟩

/-- Witness for C1 on a concrete store exercising all four cases. -/
theorem C1_state_resolver_cases_witness :
    get_user_verification_status_db okEnv c1Store (100 * 1440 + 60) 1 = ("verified", none) ∧
    get_user_verification_status_db okEnv c1Store (100 * 1440 + 60) 2
      = ("pending", some "I will manage my risk.") ∧
    get_user_verification_status_db okEnv c1Store (100 * 1440 + 60) 3 = ("none", none) ∧
    get_user_verification_status_db okEnv c1Store (100 * 1440 + 60) 4 = ("none", none) :=
  ⟨(C1_state_resolver_cases c1Store 1 _).2.1 ⟨100, none⟩ (by decide) (by decide) rfl,
   (C1_state_resolver_cases c1Store 2 _).2.2.1 ⟨100, some "I will manage my risk."⟩
     "I will manage my risk." (by decide) (by decide) rfl,
   (C1_state_resolver_cases c1Store 3 _).2.2.2 ⟨99, some "X"⟩ (by decide) (by decide),
   (C1_state_resolver_cases c1Store 4 _).1 (by decide)⟩

/-- Claim C2 is false on the code: at 02:00 UTC on day 100 the reference
timezone (America/New_York, UTC-5) still has day 99, yet the State
Resolver treats a record verified on day 99 as stale (it compares
against the UTC date), and the bulk clear deletes that row even though
its date equals the reference-timezone today. -/
theorem C2_counterexample_tz :
    dateAtOffset referenceOffsetMin c2Now = 99 ∧
    get_user_verification_status_db okEnv c2Store c2Now 5 = ("none", none) ∧
    resolve_spec_at_offset referenceOffsetMin c2Store c2Now 5 = ("verified", none) ∧
    (clear_stale_verifications_db okEnv c2Store c2Now).2.user_verifications = [] ∧
    (clear_stale_verifications_db okEnv c2Store c2Now).1 = 1 := by
  decide

/-- Claim C2 (amended): every computation of "today" against stored
verification dates uses UTC, not the configured reference timezone: the
State Resolver coincides with the spec case analysis taken at UTC
offset 0, and the bulk clear keeps exactly the rows whose
`verified_date` equals the UTC today, reporting the number of other
rows as deleted.  (The reference timezone is used only for the reset
trigger time.) -/
theorem C2_amended_today_is_utc (store : Store) (now : Instant) (uid : UserId) :
    get_user_verification_status_db okEnv store now uid
      = resolve_spec_at_offset 0 store now uid ∧
    (∀ p : UserId × UserRecord,
        p ∈ (clear_stale_verifications_db okEnv store now).2.user_verifications ↔
          (p ∈ store.user_verifications ∧ p.2.verified_date = todayUTC now)) ∧
    (clear_stale_verifications_db okEnv store now).1 =
      (store.user_verifications.filter
          (fun p => decide (¬ p.2.verified_date = todayUTC now))).length := by
  have hz : ∀ t : Instant, dateAtOffset 0 t = todayUTC t := fun _ => rfl
  refine ⟨?_, ?_, rfl⟩
  · cases hrow : lookupA store.user_verifications uid with
    | none =>
        rw [resolver_of_lookup_none store now uid hrow]
        simp [resolve_spec_at_offset, hrow, hz]
    | some row =>
        by_cases hd : row.verified_date = todayUTC now
        · cases hp : row.pending_affirmation with
          | none =>
              rw [resolver_verified store now uid row hrow hd hp]
              simp [resolve_spec_at_offset, hrow, hd, hp, hz]
          | some s =>
              rw [resolver_pending store now uid row s hrow hd hp]
              simp [resolve_spec_at_offset, hrow, hd, hp, hz]
        · rw [resolver_stale store now uid row hrow hd]
          simp [resolve_spec_at_offset, hrow, hd, hz]
  · intro p
    simp [clear_stale_verifications_db, okEnv, List.mem_filter]

/-- Claim C8: `add_mindful_channel_db` is idempotent: adding the same
channel twice returns success both times, the second add leaves the
store unchanged, and the store ends with exactly one (guild, channel)
row. -/
theorem C8_add_channel_idempotent (store : Store) (gid : GuildId) (cid : ChannelId)
    (h : ¬ (gid, cid) ∈ store.mindful_channels) :
    (add_mindful_channel_db okEnv store gid cid).1 = true ∧
    add_mindful_channel_db okEnv (add_mindful_channel_db okEnv store gid cid).2 gid cid
      = (true, (add_mindful_channel_db okEnv store gid cid).2) ∧
    ((add_mindful_channel_db okEnv (add_mindful_channel_db okEnv store gid cid).2 gid
        cid).2.mindful_channels.countP (fun p => decide (p = (gid, cid)))) = 1 := by
  have h1 : add_mindful_channel_db okEnv store gid cid
      = (true, { store with
                   mindful_channels := store.mindful_channels ++ [(gid, cid)] }) := by
    simp [add_mindful_channel_db, okEnv, h]
  have hmem : (gid, cid) ∈ store.mindful_channels ++ [(gid, cid)] := by simp
  have h2 : add_mindful_channel_db okEnv
      { store with mindful_channels := store.mindful_channels ++ [(gid, cid)] } gid cid
      = (true, { store with
                   mindful_channels := store.mindful_channels ++ [(gid, cid)] }) := by
    simp [add_mindful_channel_db, okEnv, hmem]
  have hcount : (store.mindful_channels ++ [(gid, cid)]).countP
      (fun p => decide (p = (gid, cid))) = 1 := by
    rw [List.countP_append]
    have hz : store.mindful_channels.countP (fun p => decide (p = (gid, cid))) = 0 := by
      rw [List.countP_eq_zero]
      intro a ha
      simp only [decide_eq_true_eq]
      intro hc
      exact h (hc ▸ ha)
    rw [hz]
    simp
  refine ⟨by rw [h1], ?_, ?_⟩
  · rw [h1, h2]
  · rw [h1, h2]
    exact hcount

/-- Witness for C8 starting from an empty store. -/
theorem C8_add_channel_idempotent_witness :
    add_mindful_channel_db okEnv (add_mindful_channel_db okEnv ⟨[], []⟩ 10 20).2 10 20
      = (true, (add_mindful_channel_db okEnv ⟨[], []⟩ 10 20).2) :=
  (C8_add_channel_idempotent ⟨[], []⟩ 10 20 (by decide)).2.1

/-- Claim C9: whenever the pool is unavailable or the query raises, the
State Resolver returns ("none", none) — the same answer as a healthy
database with no record for the user — and the DM handler consequently
does nothing at all with the inbound reply (no store change, no lock
change, no message sent). -/
theorem C9_resolver_outage (env : DbEnv) (store : Store) (now : Instant) (uid : UserId)
    (g : GuildEnv) (perms : PermState) (content : String)
    (h : env.poolAvailable = false ∨ env.raises = true) :
    get_user_verification_status_db env store now uid = ("none", none) ∧
    (∀ store2 : Store, lookupA store2.user_verifications uid = none →
        get_user_verification_status_db env store now uid
          = get_user_verification_status_db okEnv store2 now uid) ∧
    on_message_dm env g now store perms uid content = ⟨store, perms, [], none⟩ := by
  have hres : get_user_verification_status_db env store now uid = ("none", none) := by
    rcases h with h | h
    · simp [get_user_verification_status_db, h]
    · by_cases hp : env.poolAvailable = false
      · simp [get_user_verification_status_db, hp]
      · simp [get_user_verification_status_db, hp, h]
  refine ⟨hres, ?_, ?_⟩
  · intro store2 h2
    rw [hres, resolver_of_lookup_none store2 now uid h2]
  · by_cases hp : env.poolAvailable = false
    · simp [on_message_dm, hp]
    · by_cases hc : pyStarts content COMMAND_MARK = true
      · simp [on_message_dm, hp, hc]
      · simp [on_message_dm, hp, hc, hres]

/-- Witness for C9: during an outage a pending user's correct reply is
ignored. -/
theorem C9_resolver_outage_witness :
    on_message_dm ⟨true, true⟩ emptyGuildEnv (100 * 1440 + 60)
        ⟨[], [(7, ⟨100, some "Ok"⟩)]⟩ [] 7 "ok"
      = ⟨⟨[], [(7, ⟨100, some "Ok"⟩)]⟩, [], [], none⟩ :=
  (C9_resolver_outage ⟨true, true⟩ ⟨[], [(7, ⟨100, some "Ok"⟩)]⟩ (100 * 1440 + 60) 7
    emptyGuildEnv [] "ok" (Or.inr rfl)).2.2

/-- Claim C3: for an inbound DM from a user pending with (nonempty)
expected text E, the reply is accepted iff the content, stripped of
surrounding whitespace and case-folded, equals E case-folded; on a
match the row becomes (today, NULL), and in every shared guild every
gated text channel where the bot holds Manage Roles ends up without the
read-history deny, while channels not covered by any privileged gated
entry keep their overwrite untouched (skipped, no retry). -/
theorem C3_response_verifier (g : GuildEnv) (store : Store) (perms : PermState)
    (now : Instant) (uid : UserId) (content : String) (row : UserRecord) (E : String)
    (hrow : lookupA store.user_verifications uid = some row)
    (hdate : row.verified_date = todayUTC now)
    (hpend : row.pending_affirmation = some E)
    (hE : ¬ E = "")
    (hcmd : ¬ pyStarts content COMMAND_MARK = true) :
    ((on_message_dm okEnv g now store perms uid content).sent = [DmOut.success_confirm]
        ↔ pyLower (pyStrip content) = pyLower E) ∧
    (pyLower (pyStrip content) = pyLower E →
       lookupA (on_message_dm okEnv g now store perms uid
           content).store.user_verifications uid = some ⟨todayUTC now, none⟩ ∧
       (∀ (gid : GuildId) (c : ChannelId), gid ∈ g.guilds → g.isMember gid uid = true →
           (gid, c) ∈ store.mindful_channels → g.isTextChannel gid c = true →
           g.botCanManage gid c = true →
           ¬ (overwrites_for (on_message_dm okEnv g now store perms uid content).perms
                uid c).read_message_history = some false) ∧
       (∀ c : ChannelId,
           (∀ gid : GuildId, gid ∈ g.guilds →
              ¬ (g.isMember gid uid = true ∧ (gid, c) ∈ store.mindful_channels ∧
                 g.isTextChannel gid c = true ∧ g.botCanManage gid c = true)) →
           overwrites_for (on_message_dm okEnv g now store perms uid content).perms uid c
             = overwrites_for perms uid c)) := by
  by_cases hm : pyLower (pyStrip content) = pyLower E
  · have h1 := on_message_dm_pending_match g store perms now uid content row E
      hrow hdate hpend hE hcmd hm
    rw [h1]
    refine ⟨by simp [hm], fun _ => ⟨?_, ?_, ?_⟩⟩
    · show lookupA (updateAllA store.user_verifications uid
          (fun _ => ⟨todayUTC now, none⟩)) uid = some ⟨todayUTC now, none⟩
      rw [lookupA_updateAllA, hrow]
      rfl
    · intro gid c hg hmem hgc htext hman
      have hc : c ∈ get_mindful_channels_db okEnv
          { store with
              user_verifications :=
                updateAllA store.user_verifications uid
                  (fun _ => ⟨todayUTC now, none⟩) } gid :=
        (mem_get_mindful_channels _ gid c).mpr hgc
      exact unlock_guilds_go_establishes okEnv _ g uid g.guilds [] perms gid c hg
        (List.not_mem_nil gid) hmem hc htext hman
    · intro c hall
      apply unlock_guilds_go_untouched
      intro gid hg hcontra
      apply hall gid hg
      exact ⟨hcontra.1, (mem_get_mindful_channels _ gid c).mp hcontra.2.1,
        hcontra.2.2.1, hcontra.2.2.2⟩
  · have h1 := on_message_dm_pending_mismatch g store perms now uid content row E
      hrow hdate hpend hE hcmd hm
    rw [h1]
    exact ⟨by simp [hm], fun hm' => absurd hm' hm⟩

/-- Witness for C3: user 7, pending "Ok", replies " ok "; the row
becomes (today, NULL). -/
theorem C3_response_verifier_witness :
    lookupA (on_message_dm okEnv c3GuildEnv (100 * 1440 + 60) c3Store c3Perms 7
        " ok ").store.user_verifications 7
      = some ⟨todayUTC (100 * 1440 + 60), none⟩ :=
  ((C3_response_verifier c3GuildEnv c3Store c3Perms (100 * 1440 + 60) 7 " ok "
      ⟨100, some "Ok"⟩ "Ok" (by decide) (by decide) rfl (by decide) (by decide)).2
    (by decide)).1

/-- Claim C5: when the challenge DM cannot be delivered, the pending
row just written is deleted again (the user resolves to none, so the
next typing signal reissues a challenge and can deliver it), while the
read lock that was applied remains in place. -/
theorem C5_dm_failure_fail_locked (store : Store) (perms : PermState) (now : Instant)
    (gid : GuildId) (cid : ChannelId) (uid : UserId) (aff : String)
    (hgated : (gid, cid) ∈ store.mindful_channels)
    (hstatus : get_user_verification_status_db okEnv store now uid = ("none", none)) :
    lookupA (on_typing okEnv now store perms gid cid uid true aff
        true).store.user_verifications uid = none ∧
    get_user_verification_status_db okEnv
        (on_typing okEnv now store perms gid cid uid true aff true).store now uid
      = ("none", none) ∧
    (overwrites_for (on_typing okEnv now store perms gid cid uid true aff true).perms
        uid cid).read_message_history = some false ∧
    (on_typing okEnv now store perms gid cid uid true aff true).dmDelivered = false ∧
    (on_typing okEnv now (on_typing okEnv now store perms gid cid uid true aff true).store
        (on_typing okEnv now store perms gid cid uid true aff true).perms
        gid cid uid true aff false).dmDelivered = true ∧
    lookupA (on_typing okEnv now
        (on_typing okEnv now store perms gid cid uid true aff true).store
        (on_typing okEnv now store perms gid cid uid true aff true).perms
        gid cid uid true aff false).store.user_verifications uid
      = some ⟨todayUTC now, some aff⟩ := by
  have h1 := on_typing_dm_fail store perms now gid cid uid aff hgated hstatus
  rw [h1]
  have hdel : lookupA
      (deleteA (upsertA store.user_verifications uid ⟨todayUTC now, some aff⟩) uid) uid
      = none := lookupA_deleteA_self _ uid
  have hstore1 : lookupA ({ store with
      user_verifications :=
        deleteA (upsertA store.user_verifications uid ⟨todayUTC now, some aff⟩)
          uid } : Store).user_verifications uid = none := hdel
  have hstat1 : get_user_verification_status_db okEnv
      { store with
          user_verifications :=
            deleteA (upsertA store.user_verifications uid ⟨todayUTC now, some aff⟩) uid }
      now uid = ("none", none) := resolver_of_lookup_none _ now uid hstore1
  have hgated1 : (gid, cid) ∈ ({ store with
      user_verifications :=
        deleteA (upsertA store.user_verifications uid ⟨todayUTC now, some aff⟩)
          uid } : Store).mindful_channels := hgated
  have h2 := on_typing_dm_ok _ (apply_read_lock perms uid cid) now gid cid uid aff
    hgated1 hstat1
  refine ⟨hdel, hstat1, ?_, rfl, ?_, ?_⟩
  · show (overwrites_for (apply_read_lock perms uid cid) uid cid).read_message_history
      = some false
    rw [apply_read_lock, overwrites_setReadHistory_self]
  · rw [h2]
  · rw [h2]
    exact lookupA_upsertA_self _ uid _

/-- Witness for C5 on a concrete gated store with an unreachable user. -/
theorem C5_dm_failure_fail_locked_witness :
    (overwrites_for (on_typing okEnv (100 * 1440 + 60) ⟨[(11, 21)], []⟩ [] 11 21 7 true
        "I will manage my risk." true).perms 7 21).read_message_history = some false :=
  (C5_dm_failure_fail_locked ⟨[(11, 21)], []⟩ [] (100 * 1440 + 60) 11 21 7
    "I will manage my risk." (by decide) (by decide)).2.2.1

/-- Claim C6: a mismatched reply from a pending user changes nothing —
the store (hence the record) and the lock state are exactly as before,
the user still resolves to pending with the same text — and the same
expected challenge text is re-sent verbatim after the fixed one-second
anti-spam delay. -/
theorem C6_mismatch_resend_frame (g : GuildEnv) (store : Store) (perms : PermState)
    (now : Instant) (uid : UserId) (content : String) (row : UserRecord) (E : String)
    (hrow : lookupA store.user_verifications uid = some row)
    (hdate : row.verified_date = todayUTC now)
    (hpend : row.pending_affirmation = some E)
    (hE : ¬ E = "")
    (hcmd : ¬ pyStarts content COMMAND_MARK = true)
    (hmm : ¬ pyLower (pyStrip content) = pyLower E) :
    on_message_dm okEnv g now store perms uid content
      = ⟨store, perms, [DmOut.challenge_resend E], some 1⟩ ∧
    get_user_verification_status_db okEnv
        (on_message_dm okEnv g now store perms uid content).store now uid
      = ("pending", some E) := by
  have h1 := on_message_dm_pending_mismatch g store perms now uid content row E
    hrow hdate hpend hE hcmd hmm
  refine ⟨h1, ?_⟩
  rw [h1]
  exact resolver_pending store now uid row E hrow hdate hpend

/-- Witness for C6: user 7, pending "Ok", replies "nope". -/
theorem C6_mismatch_resend_frame_witness :
    on_message_dm okEnv c3GuildEnv (100 * 1440 + 60) c3Store c3Perms 7 "nope"
      = ⟨c3Store, c3Perms, [DmOut.challenge_resend "Ok"], some 1⟩ :=
  (C6_mismatch_resend_frame c3GuildEnv c3Store c3Perms (100 * 1440 + 60) 7 "nope"
    ⟨100, some "Ok"⟩ "Ok" (by decide) (by decide) rfl (by decide) (by decide)
    (by decide)).1

/-- Claim C10: `complete_verification_db` never inserts a row (the key
set is unchanged for every store) and reports success even when no row
for the user exists; consequently, when the record vanished between the
pending check and completion, the verified flow still sends the success
confirmation and runs the full unlock pass while the user's stored
state resolves to none. -/
theorem C10_complete_never_inserts (store : Store) (now : Instant) (uid : UserId)
    (g : GuildEnv) (perms : PermState)
    (h : lookupA store.user_verifications uid = none) :
    complete_verification_db okEnv store now uid = (true, store) ∧
    (∀ (s : Store) (u : UserId),
        ((complete_verification_db okEnv s now u).2.user_verifications.map Prod.fst)
          = s.user_verifications.map Prod.fst) ∧
    dm_flow_after_match okEnv g now store perms uid
      = ⟨store, unlock_all_guilds okEnv store g uid perms, [DmOut.success_confirm], none⟩ ∧
    get_user_verification_status_db okEnv
        (dm_flow_after_match okEnv g now store perms uid).store now uid
      = ("none", none) := by
  have hc : complete_verification_db okEnv store now uid = (true, store) := by
    simp [complete_verification_db, okEnv, updateAllA_of_lookup_none _ _ _ h]
  have hflow : dm_flow_after_match okEnv g now store perms uid
      = ⟨store, unlock_all_guilds okEnv store g uid perms,
          [DmOut.success_confirm], none⟩ := by
    simp [dm_flow_after_match, hc]
  refine ⟨hc, ?_, hflow, ?_⟩
  · intro s u
    simp [complete_verification_db, okEnv, updateAllA_keys]
  · rw [hflow]
    exact resolver_of_lookup_none store now uid h

/-- Witness for C10: completing a user with no row succeeds and leaves
the store as it was. -/
theorem C10_complete_never_inserts_witness :
    complete_verification_db okEnv ⟨[], [(9, ⟨99, none⟩)]⟩ (100 * 1440 + 60) 7
      = (true, ⟨[], [(9, ⟨99, none⟩)]⟩) :=
  (C10_complete_never_inserts ⟨[], [(9, ⟨99, none⟩)]⟩ (100 * 1440 + 60) 7
    emptyGuildEnv [] (by decide)).1

end MindfulBot
